import Mathlib

/-!
Verification of the SUNOCAT playlist player core (src/app.js).

JavaScript strings are modelled as lists of characters (`Str`).  The
player state machine, the URL token encoder and decoder, the identifier
extractor, the metadata completion pipeline and the history storage are
shallowly embedded as executable Lean functions, each translated from the
function of `src/app.js` named in its doc comment.  The LZString library
is not part of the repository; following the specification it is modelled
as an abstract reversible text transform, passed as a parameter
(`compress`, `decompress`) together with the inversion law the
specification attributes to it.
-/

namespace Sunocat

/-- A JavaScript string, modelled as its list of characters. -/
abbrev Str := List Char

-- ===== String primitives (JavaScript semantics) =====

/-- JavaScript `s.split(sep)` for a one-character separator: splitting the
empty string yields `[""]`, and a trailing separator yields a trailing
empty field. -/
def splitOnChar (sep : Char) : Str → List Str
  | [] => [[]]
  | c :: cs =>
    if c = sep then [] :: splitOnChar sep cs
    else
      match splitOnChar sep cs with
      | [] => [[c]]
      | p :: rest => (c :: p) :: rest

/-- JavaScript `list.join(sep)` for a one-character separator. -/
def joinChar (sep : Char) : List Str → Str
  | [] => []
  | [x] => x
  | x :: y :: xs => x ++ sep :: joinChar sep (y :: xs)

/-- JavaScript whitespace test for the characters `trim` removes (the
forms of whitespace that occur in pasted link text). -/
def isWS (c : Char) : Bool :=
  (c == ' ') || (c == '\t') || (c == '\n') || (c == '\r')

/-- Drop leading whitespace. -/
def trimLeft : Str → Str
  | [] => []
  | c :: cs => if isWS c then trimLeft cs else c :: cs

/-- JavaScript `s.trim()`. -/
def trimStr (s : Str) : Str :=
  (trimLeft (trimLeft s.reverse).reverse)

-- ===== Identifier extractor (src/app.js: SUNOPlaylist.extractUUID, lines 862-868) =====

/-- Character class `[a-f0-9]` under the `/i` flag (hexadecimal digit,
either case). -/
def isHexDigit (c : Char) : Bool :=
  (('a' ≤ c) && (c ≤ 'f')) || (('0' ≤ c) && (c ≤ '9')) || (('A' ≤ c) && (c ≤ 'F'))

/-- Character class `[a-f0-9-]` under the `/i` flag. -/
def isHexHyphen (c : Char) : Bool :=
  isHexDigit c || (c == '-')

/-- The literal `/song/` of the first pattern. -/
def songPrefix : Str := ['/', 's', 'o', 'n', 'g', '/']

/-- Attempt of the regex `\/song\/([a-f0-9-]{36})` (flag `i`) at the head
of the string: the literal `/song/` case-insensitively, then exactly 36
characters of the class, captured. -/
def matchSongAt : Str → Option Str
  | c1 :: c2 :: c3 :: c4 :: c5 :: c6 :: rest =>
    if (c1 == '/') && (c2.toLower == 's') && (c3.toLower == 'o') &&
       (c4.toLower == 'n') && (c5.toLower == 'g') && (c6 == '/') then
      let tok := rest.take 36
      if (tok.length == 36) && tok.all isHexHyphen then some tok else none
    else none
  | _ => none

/-- Leftmost match of the `/song/` pattern, as `String.prototype.match`
finds it. -/
def findSong : Str → Option Str
  | [] => none
  | c :: cs =>
    match matchSongAt (c :: cs) with
    | some t => some t
    | none => findSong cs

/-- Consume exactly `n` hexadecimal digits. -/
def chompHex : Nat → Str → Option Str
  | 0, s => some s
  | _ + 1, [] => none
  | n + 1, c :: cs => if isHexDigit c then chompHex n cs else none

/-- Consume one hyphen. -/
def chompDash : Str → Option Str
  | [] => none
  | c :: cs => if c == '-' then some cs else none

/-- Attempt of the bare pattern
`([a-f0-9]{8}-[a-f0-9]{4}-[a-f0-9]{4}-[a-f0-9]{4}-[a-f0-9]{12})`
(flag `i`) at the head of the string. -/
def matchUUIDAt (s : Str) : Bool :=
  (((((((((chompHex 8 s).bind chompDash).bind (chompHex 4)).bind chompDash).bind
    (chompHex 4)).bind chompDash).bind (chompHex 4)).bind chompDash).bind
    (chompHex 12)).isSome

/-- Leftmost match of the bare canonical pattern; the capture is the 36
matched characters. -/
def findUUID : Str → Option Str
  | [] => none
  | c :: cs => if matchUUIDAt (c :: cs) then some ((c :: cs).take 36) else findUUID cs

/-- `SUNOPlaylist.extractUUID` (src/app.js lines 862-868): first the
resource-path pattern, then the bare canonical pattern, else `null`. -/
def extractUUID (url : Str) : Option Str :=
  match findSong url with
  | some t => some t
  | none => findUUID url

/-- A canonically extracted track identifier: 36 characters over the
hexadecimal-or-hyphen class (the shape the first extractor pattern
guarantees). -/
def validIdentifier (u : Str) : Prop :=
  u.length = 36 ∧ u.all isHexHyphen = true

instance (u : Str) : Decidable (validIdentifier u) := by
  unfold validIdentifier
  infer_instance

-- ===== Compact encoder and decoder =====

/-- Encoder of `SUNOPlaylist.updateURL` (src/app.js lines 961-966):
comma-join the identifiers, then apply the URL-safe compression
transform. -/
def encodeToken (compress : Str → Str) (uuids : List Str) : Str :=
  compress (joinChar ',' uuids)

/-- Decoder of `SUNOPlaylist.loadFromURL` (src/app.js lines 826-831):
decompress the token, then comma-split.  `decompress` returns `none` on a
corrupt token (the caller catches the resulting failure). -/
def decodeToken (decompress : Str → Option Str) (token : Str) : Option (List Str) :=
  (decompress token).map (splitOnChar ',')

-- ===== Data model =====

/-- One playable entry, as built by `SUNOPlaylist.loadPlaylist`
(src/app.js lines 918-926); `thumbnail` is attached later by the metadata
completion, `error` is initialised to `null` and never written. -/
structure Track where
  uuid : Str
  mp3Url : Str
  title : Str
  artist : Str
  isLiked : Bool
  thumbnail : Option Str
  error : Option Str
  deriving DecidableEq, Repr

/-- The track object pushed for the identifier `u` when `n` tracks are
already in the list (src/app.js lines 919-926). -/
def mkTrack (liked : Str → Bool) (n : Nat) (u : Str) : Track :=
  { uuid := u
    mp3Url := ("https://cdn1.suno.ai/").data ++ u ++ (".mp3").data
    title := ("Track ").data ++ (Nat.repr (n + 1)).data
    artist := ("Loading...").data
    isLiked := liked u
    thumbnail := none
    error := none }

/-- The fresh track list built from extracted identifiers, in order. -/
def buildPlaylist (liked : Str → Bool) (uuids : List Str) : List Track :=
  uuids.enum.map (fun p => mkTrack liked p.1 p.2)

/-- `this.repeatMode` (the strings `none`, `all`, `one`). -/
inductive RepeatMode where
  | rNone
  | rAll
  | rOne
  deriving DecidableEq, Repr

/-- The mutable fields of `SUNOPlaylist` owned by the playback state
machine (src/app.js lines 413-416, 481-484). -/
structure PlayerState where
  playlist : List Track
  currentIndex : Nat
  isPlaying : Bool
  shuffleMode : Bool
  repeatMode : RepeatMode
  originalPlaylist : List Track
  deriving DecidableEq, Repr

/-- The state at construction: empty playlist, index 0, not playing,
shuffle off, repeat `none`. -/
def initState : PlayerState :=
  { playlist := []
    currentIndex := 0
    isPlaying := false
    shuffleMode := false
    repeatMode := .rNone
    originalPlaylist := [] }

-- ===== Playback state machine (src/app.js) =====

/-- `SUNOPlaylist.loadTrack` (lines 1113-1119): out-of-range indices are
ignored, in-range indices become the cursor. -/
def loadTrack (s : PlayerState) (index : Int) : PlayerState :=
  if index < 0 ∨ (s.playlist.length : Int) ≤ index then s
  else { s with currentIndex := index.toNat }

/-- `SUNOPlaylist.play` (lines 1122-1130): no-op on an empty playlist,
otherwise the playing flag is set (the media promise is assumed to
resolve). -/
def play (s : PlayerState) : PlayerState :=
  if s.playlist.length = 0 then s else { s with isPlaying := true }

/-- `SUNOPlaylist.pause` (lines 1131-1135). -/
def pause (s : PlayerState) : PlayerState :=
  { s with isPlaying := false }

/-- `SUNOPlaylist.togglePlay` (line 1121). -/
def togglePlay (s : PlayerState) : PlayerState :=
  if s.isPlaying then pause s else play s

/-- `SUNOPlaylist.playNext` (lines 1137-1151).  At the end of the list
the cursor wraps to 0 only under repeat `all`; otherwise the method
returns with the state untouched.  `if (this.isPlaying) this.play()`
re-sets an already-true flag, so the flag is unchanged. -/
def playNext (s : PlayerState) : PlayerState :=
  if s.playlist.length = 0 then s
  else
    let nextIndex := s.currentIndex + 1
    if s.playlist.length ≤ nextIndex then
      match s.repeatMode with
      | .rAll => loadTrack s 0
      | _ => s
    else loadTrack s nextIndex

/-- `SUNOPlaylist.playPrevious` (lines 1152-1166), symmetric. -/
def playPrevious (s : PlayerState) : PlayerState :=
  if s.playlist.length = 0 then s
  else
    let prevIndex : Int := (s.currentIndex : Int) - 1
    if prevIndex < 0 then
      match s.repeatMode with
      | .rAll => loadTrack s ((s.playlist.length : Int) - 1)
      | _ => s
    else loadTrack s prevIndex

/-- `SUNOPlaylist.toggleRepeat` (lines 1193-1197): cycle none, all,
one. -/
def toggleRepeat (s : PlayerState) : PlayerState :=
  { s with repeatMode :=
      match s.repeatMode with
      | .rNone => .rAll
      | .rAll => .rOne
      | .rOne => .rNone }

/-- `SUNOPlaylist.toggleShuffle` (lines 1180-1191).  The in-place
`this.playlist.sort(() => Math.random() - 0.5)` is modelled by the
parameter `shuffle` (its outcome on the current list); the snapshot
`originalPlaylist` is taken before sorting.  Both branches then set the
cursor to 0 and call `loadTrack(0)`. -/
def toggleShuffle (shuffle : List Track → List Track) (s : PlayerState) : PlayerState :=
  let sm := !s.shuffleMode
  let s1 :=
    if sm then
      { s with shuffleMode := sm
               originalPlaylist := s.playlist
               playlist := shuffle s.playlist }
    else
      { s with shuffleMode := sm, playlist := s.originalPlaylist }
  loadTrack { s1 with currentIndex := 0 } 0

/-- `SUNOPlaylist.clearPlaylist` (lines 1199-1204): on confirmation the
playlist is emptied; the cursor and the playing flag are not touched. -/
def clearPlaylist (s : PlayerState) (confirmed : Bool) : PlayerState :=
  if confirmed then { s with playlist := [] } else s

/-- JavaScript `splice(i, 1)` removal. -/
def spliceRemove (l : List Track) (i : Nat) : List Track :=
  l.take i ++ l.drop (i + 1)

/-- JavaScript `splice(i, 0, x)` insertion (appends when `i` is past the
end). -/
def spliceInsert (l : List Track) (i : Nat) (x : Track) : List Track :=
  l.take i ++ x :: l.drop i

/-- JavaScript `Array.prototype.findIndex`: index of the first element
satisfying `p`, and `-1` when none does. -/
def findIndexJS {α : Type} (p : α → Bool) : List α → Int
  | [] => -1
  | x :: xs =>
    if p x then 0
    else
      let r := findIndexJS p xs
      if r < 0 then -1 else r + 1

/-- The cursor relocation of `SUNOPlaylist.reorderPlaylist`
(lines 783-788): the cursor moves to wherever the identifier it pointed
at before the move now sits, when that identifier is truthy and found;
otherwise it is left alone. -/
def reorderCursor (newList : List Track) (currentUuid : Option Str) (ci : Nat) : Nat :=
  match currentUuid with
  | some u =>
    if u = [] then ci
    else
      let ni := findIndexJS (fun t => t.uuid == u) newList
      if ni = -1 then ci else ni.toNat
  | none => ci

/-- `SUNOPlaylist.reorderPlaylist` (lines 769-801): remove the moved
track, reinsert it at the target, replace both the playlist and the
shuffle snapshot, and relocate the cursor with `reorderCursor`.
Negative indices are excluded by the `Nat` type; the DOM caller always
passes a `fromIndex` below the list length (it reads it from a rendered
item), which the `match` on the moved element reflects. -/
def reorderPlaylist (s : PlayerState) (fromIndex toIndex : Nat) : PlayerState :=
  if fromIndex = toIndex then s
  else
    match s.playlist[fromIndex]? with
    | none => s
    | some moved =>
      let newList := spliceInsert (spliceRemove s.playlist fromIndex) toIndex moved
      { s with playlist := newList
               originalPlaylist := newList
               currentIndex :=
                 reorderCursor newList ((s.playlist[s.currentIndex]?).map Track.uuid)
                   s.currentIndex }

/-- The `ended` handler of the audio element (lines 573-579): repeat
`one` restarts the same track, otherwise behave as `playNext`. -/
def trackEnded (s : PlayerState) : PlayerState :=
  match s.repeatMode with
  | .rOne => play s
  | _ => playNext s

-- ===== Load pipeline (src/app.js: SUNOPlaylist.loadPlaylist, lines 900-959) =====

/-- Identifier extraction for one input line (lines 912-916): the regex
extractor first, then the short-link form `/s/<token>` resolved through
the external endpoint, modelled by the parameter `resolveShort`. -/
def shortToken : Str → Option Str
  | [] => none
  | c :: cs =>
    match c :: cs with
    | '/' :: 's' :: '/' :: rest =>
      let tok := rest.takeWhile (fun d => d.isAlpha || d.isDigit)
      if tok = [] then shortToken cs else some tok
    | _ => shortToken cs

/-- One line of `loadPlaylist`: `extractUUID`, and on failure the
short-link resolution when the line contains `/s/`. -/
def extractLine (resolveShort : Str → Option Str) (line : Str) : Option Str :=
  match extractUUID line with
  | some u => some u
  | none =>
    match shortToken line with
    | some sid => resolveShort sid
    | none => none

/-- Outcome signal of a load, mirroring the toasts of `loadPlaylist`. -/
inductive LoadSignal where
  | emptyInput
  | noValidLinks
  | loaded
  deriving DecidableEq, Repr

/-- The extraction loop of `loadPlaylist` (lines 907-916): trim the
input, split into lines, trim and drop blank lines, collect the
identifier each line yields. -/
def extractedIds (resolveShort : Str → Option Str) (text : Str) : List Str :=
  let lines := ((splitOnChar '\n' (trimStr text)).map trimStr).filter (fun l => l ≠ [])
  lines.filterMap (extractLine resolveShort)

/-- The synchronous part of `SUNOPlaylist.loadPlaylist` (lines 900-938).
The method clears `this.playlist` before extracting, so a load that
finds no identifier leaves the playlist empty while the cursor and the
playing flag keep their previous values.  On success the cursor moves to
0 via `loadTrack(0)`. -/
def loadPlaylist (resolveShort : Str → Option Str) (liked : Str → Bool)
    (s : PlayerState) (text : Str) : PlayerState × LoadSignal :=
  if trimStr text = [] then (s, .emptyInput)
  else if buildPlaylist liked (extractedIds resolveShort text) = [] then
    ({ s with playlist := [] }, .noValidLinks)
  else
    (loadTrack { s with playlist := buildPlaylist liked (extractedIds resolveShort text) } 0,
      .loaded)

-- ===== Command dispatch over the state machine =====

/-- The user- and media-initiated transitions of the state machine, each
applied synchronously and atomically. -/
inductive Cmd where
  | cPlay
  | cPause
  | cTogglePlay
  | cNext
  | cPrev
  | cToggleRepeat
  | cShuffle (shuffle : List Track → List Track)
  | cClear (confirmed : Bool)
  | cLoad (resolveShort : Str → Option Str) (liked : Str → Bool) (text : Str)
  | cLoadTrack (i : Int)
  | cReorder (fromIndex toIndex : Nat)
  | cTrackEnded
  | cMediaError

/-- One transition of the state machine; `cMediaError` is the audio
error handler (line 1234), which skips forward. -/
def step : Cmd → PlayerState → PlayerState
  | .cPlay, s => play s
  | .cPause, s => pause s
  | .cTogglePlay, s => togglePlay s
  | .cNext, s => playNext s
  | .cPrev, s => playPrevious s
  | .cToggleRepeat, s => toggleRepeat s
  | .cShuffle f, s => toggleShuffle f s
  | .cClear c, s => clearPlaylist s c
  | .cLoad r l t, s => (loadPlaylist r l s t).1
  | .cLoadTrack i, s => loadTrack s i
  | .cReorder f t, s => reorderPlaylist s f t
  | .cTrackEnded, s => trackEnded s
  | .cMediaError, s => playNext s

/-- The cursor invariant of the specification: a non-empty playlist keeps
the cursor inside the list. -/
def cursorInv (s : PlayerState) : Prop :=
  s.playlist ≠ [] → s.currentIndex < s.playlist.length

instance (s : PlayerState) : Decidable (cursorInv s) := by
  unfold cursorInv
  infer_instance

-- ===== Metadata completion pipeline (src/app.js lines 870-887, 940-955) =====

/-- A successful metadata response, as `fetchSongMetadata` returns it
(lines 876-880): title, artist defaulted to `SUNO`, optional
thumbnail.  `none` stands for the exhausted-retries result whose `title`
is `null`. -/
structure MetaResult where
  title : Str
  artist : Str
  thumbnail : Option Str
  deriving DecidableEq, Repr

/-- The completion callback body (lines 942-950) applied to one track
object: a result with a truthy title writes title, artist and thumbnail
(titles pass through the HTML-entity decode, modelled by `decodeEnt`);
otherwise only the artist is overwritten with the error marker. -/
def applyMetaToTrack (decodeEnt : Str → Str) (m : Option MetaResult) (t : Track) : Track :=
  match m with
  | some meta =>
    if meta.title ≠ [] then
      { t with title := decodeEnt meta.title
               artist := decodeEnt meta.artist
               thumbnail := meta.thumbnail }
    else { t with artist := ("Error").data }
  | none => { t with artist := ("Error").data }

/-- Heap view of the load pipeline: JavaScript track objects live in a
store addressed by allocation order, and the playlist holds references.
A completion closure of a load captures the references of that load. -/
structure Heap where
  store : List Track
  playlistRefs : List Nat
  deriving Repr

/-- A `loadPlaylist` call on the heap: fresh track objects are allocated
for the extracted identifiers and the playlist is replaced by their
references (lines 908, 918-926). -/
def heapLoad (liked : Str → Bool) (h : Heap) (uuids : List Str) : Heap :=
  let base := h.store.length
  let tracks := buildPlaylist liked uuids
  { store := h.store ++ tracks
    playlistRefs := (List.range tracks.length).map (fun i => i + base) }

/-- One metadata completion, mutating the closed-over track object in
place (lines 941-950). -/
def applyCompletion (decodeEnt : Str → Str) (h : Heap) (ref : Nat)
    (m : Option MetaResult) : Heap :=
  match h.store[ref]? with
  | some t => { h with store := h.store.set ref (applyMetaToTrack decodeEnt m t) }
  | none => h

/-- A batch of completions, in any arrival order. -/
def applyCompletions (decodeEnt : Str → Str) (h : Heap)
    (cs : List (Nat × Option MetaResult)) : Heap :=
  cs.foldl (fun h c => applyCompletion decodeEnt h c.1 c.2) h

-- ===== URL entry (src/app.js: SUNOPlaylist.loadFromURL, lines 810-842) =====

/-- What `loadFromURL` decides to do: fetch by server short id, load a
decoded identifier list, or nothing. -/
inductive LoadOutcome where
  | fromShortId (shortId : Str)
  | fromList (uuids : List Str)
  | nothing
  deriving DecidableEq, Repr

/-- JavaScript truthiness of a nullable string: absent and empty are
falsy. -/
def jsTruthy : Option Str → Bool
  | some s => !s.isEmpty
  | none => false

/-- The query-parameter part of `loadFromURL` (lines 820-842):
`params.get('p') || params.get('tracks')`, the compressed decode when the
`p` parameter is truthy, the legacy comma-split otherwise; a decode
failure is caught and degrades to nothing. -/
def loadFromQuery (decompress : Str → Option Str)
    (pParam tracksParam : Option Str) : LoadOutcome :=
  let compressed := if jsTruthy pParam then pParam else tracksParam
  if jsTruthy compressed then
    if jsTruthy pParam then
      match decodeToken decompress (compressed.getD []) with
      | some uuids => if uuids.isEmpty then .nothing else .fromList uuids
      | none => .nothing
    else
      let uuids := splitOnChar ',' (compressed.getD [])
      if uuids.isEmpty then .nothing else .fromList uuids
  else .nothing

/-- `SUNOPlaylist.loadFromURL` (lines 810-842): a path of the form
`/p/<shortId>` with a truthy short id wins outright; otherwise the query
parameters decide. -/
def loadFromURL (decompress : Str → Option Str) (path : Str)
    (pParam tracksParam : Option Str) : LoadOutcome :=
  match path with
  | '/' :: 'p' :: '/' :: rest =>
    if rest = [] then loadFromQuery decompress pParam tracksParam
    else .fromShortId rest
  | _ => loadFromQuery decompress pParam tracksParam

-- ===== History storage (src/app.js: PlaylistStorage.savePlaylist, lines 235-273) =====

/-- One history record (lines 242-252): id, timestamp, count, the
per-track identifier/title/artist snapshot, first track title. -/
structure HistRecord where
  id : Nat
  timestamp : Str
  trackCount : Nat
  tracks : List (Str × Str × Str)
  firstTrack : Str
  deriving DecidableEq, Repr

/-- Identifier sequence of a record, the deduplication key.  The source
compares `JSON.stringify` images of these lists, which coincides with
list equality because stringification of string arrays is injective. -/
def recUuids (r : HistRecord) : List Str :=
  r.tracks.map (fun t => t.1)

/-- The record object built for a playlist (lines 242-252); the empty
case of `firstTrack` is unreachable behind the length guard. -/
def mkHistRecord (idv : Nat) (ts : Str) (p : List Track) : HistRecord :=
  { id := idv
    timestamp := ts
    trackCount := p.length
    tracks := p.map (fun t => (t.uuid, t.title, t.artist))
    firstTrack := match p with | [] => [] | t :: _ => t.title }

/-- `PlaylistStorage.savePlaylist` (lines 235-273): nothing on an empty
playlist; otherwise records with the same identifier sequence are
filtered out, the new record goes to the front, and the list is cut to
`MAX_RECENT = 10`. -/
def savePlaylist (idv : Nat) (ts : Str) (p : List Track)
    (recent : List HistRecord) : List HistRecord :=
  if p.length = 0 then recent
  else
    let obj := mkHistRecord idv ts p
    let target := p.map Track.uuid
    let filtered := recent.filter (fun r => !(recUuids r == target))
    (obj :: filtered).take 10

-- ===== Comparator-sort shuffle model (src/app.js line 1184) =====

/-- Insertion with a random comparator: each comparison consumes one fair
coin flip from the stream; `true` places the new element before the
probed one.  This models the comparison sequence of the in-place
`sort(() => Math.random() - 0.5)` on small arrays. -/
def randomSortInsert {α : Type} (x : α) : List Bool → List α → List α × List Bool
  | flips, [] => ([x], flips)
  | [], l => (x :: l, [])
  | b :: bs, y :: ys =>
    if b then (x :: y :: ys, bs)
    else
      let r := randomSortInsert x bs ys
      (y :: r.1, r.2)

/-- The comparator-driven sort on a whole list, threading the flip
stream. -/
def randomSortAux {α : Type} : List α → List Bool → List α → List α × List Bool
  | [], flips, acc => (acc, flips)
  | x :: xs, flips, acc =>
    let r := randomSortInsert x flips acc
    randomSortAux xs r.2 r.1

/-- The randomized ordering `this.playlist.sort(() => Math.random() - 0.5)`
produces, as a function of the coin flips the comparator makes. -/
def randomSort {α : Type} (flips : List Bool) (l : List α) : List α :=
  (randomSortAux l flips []).1

/-- All coin-flip streams of length `n`, each equally likely. -/
def allStreams : Nat → List (List Bool)
  | 0 => [[]]
  | n + 1 => (allStreams n).map (fun s => false :: s) ++ (allStreams n).map (fun s => true :: s)

/-- Number of flip streams of length `k` under which the comparator sort
turns `l` into `target`. -/
def outcomeCount (k : Nat) (l target : List Nat) : Nat :=
  ((allStreams k).filter (fun fl => randomSort fl l == target)).length

-- ===== Concrete sample data =====

/-- Sample track with identifier `a`. -/
def trackA : Track := mkTrack (fun _ => false) 0 ['a']

/-- Sample track with identifier `b`. -/
def trackB : Track := mkTrack (fun _ => false) 1 ['b']

/-- A two-track state, cursor on the second track, playing, repeat
`all`. -/
def endStateAll : PlayerState :=
  { playlist := [trackA, trackB]
    currentIndex := 1
    isPlaying := true
    shuffleMode := false
    repeatMode := .rAll
    originalPlaylist := [] }

/-- Same state with repeat `none`. -/
def endStateNone : PlayerState := { endStateAll with repeatMode := .rNone }

/-- A one-track state, playing. -/
def loadedState : PlayerState :=
  { playlist := [trackA]
    currentIndex := 0
    isPlaying := true
    shuffleMode := false
    repeatMode := .rNone
    originalPlaylist := [] }

/-- A two-track state, cursor on the second track, shuffle off. -/
def exS6 : PlayerState :=
  { playlist := [trackA, trackB]
    currentIndex := 1
    isPlaying := false
    shuffleMode := false
    repeatMode := .rNone
    originalPlaylist := [] }

/-- A two-track state with the cursor at 0. -/
def exS9 : PlayerState :=
  { playlist := [trackA, trackB]
    currentIndex := 0
    isPlaying := true
    shuffleMode := false
    repeatMode := .rNone
    originalPlaylist := [] }

/-- 36 hexadecimal characters that are not in the canonical 8-4-4-4-12
arrangement. -/
def nonCanonical : Str := List.replicate 36 '1'

/-- A canonically shaped identifier. -/
def canonicalSample : Str := ("11111111-1111-1111-1111-111111111111").data

-- ===================================================================
-- Theorems
-- ===================================================================

-- ===== Split and join =====

/-- Splitting a string that does not contain the separator yields the
one-field list. -/
theorem splitOnChar_of_forall_ne (sep : Char) :
    ∀ s : Str, (∀ c ∈ s, c ≠ sep) → splitOnChar sep s = [s]
  | [], _ => rfl
  | c :: cs, h => by
    have hc : c ≠ sep := h c (List.mem_cons_self ..)
    have ih := splitOnChar_of_forall_ne sep cs (fun d hd => h d (List.mem_cons_of_mem _ hd))
    simp [splitOnChar, hc, ih]

/-- Splitting peels one separator-free field off the front. -/
theorem splitOnChar_append (sep : Char) :
    ∀ (x t : Str), (∀ c ∈ x, c ≠ sep) →
      splitOnChar sep (x ++ sep :: t) = x :: splitOnChar sep t
  | [], t, _ => by simp [splitOnChar]
  | c :: cs, t, h => by
    have hc : c ≠ sep := h c (List.mem_cons_self ..)
    have ih := splitOnChar_append sep cs t (fun d hd => h d (List.mem_cons_of_mem _ hd))
    simp [splitOnChar, hc, ih]

/-- Split after join is the identity on non-empty lists of
separator-free fields. -/
theorem splitOnChar_joinChar (sep : Char) :
    ∀ l : List Str, l ≠ [] → (∀ u ∈ l, ∀ c ∈ u, c ≠ sep) →
      splitOnChar sep (joinChar sep l) = l
  | [], h, _ => absurd rfl h
  | [x], _, h => by
    simpa [joinChar] using splitOnChar_of_forall_ne sep x (h x (by simp))
  | x :: y :: xs, _, h => by
    have ih := splitOnChar_joinChar sep (y :: xs) (by simp)
      (fun u hu => h u (List.mem_cons_of_mem _ hu))
    simp [joinChar, splitOnChar_append sep x _ (h x (by simp)), ih]

/-- A valid identifier contains no comma. -/
theorem validIdentifier_no_comma {u : Str} (h : validIdentifier u) :
    ∀ c ∈ u, c ≠ ',' := by
  intro c hc heq
  have hall := (List.all_eq_true.mp h.2) c hc
  subst heq
  exact absurd hall (by decide)

/-- A valid identifier is non-empty. -/
theorem validIdentifier_ne_nil {u : Str} (h : validIdentifier u) : u ≠ [] := by
  intro hnil
  have := h.1
  simp [hnil] at this

/-- A join of a non-empty list of non-empty fields is non-empty. -/
theorem joinChar_ne_nil (sep : Char) :
    ∀ l : List Str, l ≠ [] → (∀ u ∈ l, u ≠ []) → joinChar sep l ≠ []
  | [], h, _ => absurd rfl h
  | [x], _, h => by simpa [joinChar] using h x (by simp)
  | _ :: _ :: _, _, _ => by simp [joinChar]

-- ===== C1: round trip of the compact token =====

/-- C1 (amended): for every non-empty list of valid identifiers, and any
reversible compression transform, decoding the encoded token restores
exactly the same list, order and multiplicity included. -/
theorem c1_roundtrip (compress : Str → Str) (decompress : Str → Option Str)
    (hinv : ∀ s, decompress (compress s) = some s)
    (uuids : List Str) (hne : uuids ≠ [])
    (hval : ∀ u ∈ uuids, validIdentifier u) :
    decodeToken decompress (encodeToken compress uuids) = some uuids := by
  unfold decodeToken encodeToken
  rw [hinv]
  simp [splitOnChar_joinChar ',' uuids hne
    (fun u hu => validIdentifier_no_comma (hval u hu))]

/-- C1 counterexample: on the empty list the claim fails — the decoded
value of the encoded empty list is the one-element list holding the empty
string, because splitting the empty string yields one empty field; this
holds for any reversible compression, instantiated here with the
identity transform. -/
theorem c1_counterexample :
    decodeToken some (encodeToken id ([] : List Str)) = some [[]] ∧
    decodeToken some (encodeToken id ([] : List Str)) ≠ some ([] : List Str) := by
  constructor
  · rfl
  · decide

/-- C1 witness: the round trip at the concrete list a, b, a of valid
identifiers (compression instantiated with the identity transform). -/
theorem c1_roundtrip_witness :
    decodeToken some (encodeToken id [canonicalSample, ("22222222-2222-2222-2222-222222222222").data, canonicalSample]) =
      some [canonicalSample, ("22222222-2222-2222-2222-222222222222").data, canonicalSample] :=
  c1_roundtrip id some (fun _ => rfl) _ (by decide) (by decide)

-- ===== C2: supersession of in-flight metadata lookups =====

/-- References handed out by a load lie at or above the store size before
the load. -/
theorem heapLoad_refs_lower (liked : Str → Bool) (h : Heap) (u : List Str)
    {r : Nat} (hr : r ∈ (heapLoad liked h u).playlistRefs) :
    h.store.length ≤ r := by
  simp only [heapLoad, List.mem_map, List.mem_range] at hr
  obtain ⟨i, _, rfl⟩ := hr
  omega

/-- References handed out by a load lie below the store size after the
load. -/
theorem heapLoad_refs_upper (liked : Str → Bool) (h : Heap) (u : List Str)
    {r : Nat} (hr : r ∈ (heapLoad liked h u).playlistRefs) :
    r < (heapLoad liked h u).store.length := by
  simp only [heapLoad, List.mem_map, List.mem_range, List.length_append] at hr ⊢
  obtain ⟨i, hi, rfl⟩ := hr
  omega

/-- A completion batch that only touches other references leaves a track
object unchanged. -/
theorem applyCompletions_getElem_ne (decodeEnt : Str → Str) (r : Nat) :
    ∀ (cs : List (Nat × Option MetaResult)) (h : Heap),
      (∀ c ∈ cs, c.1 ≠ r) →
      (applyCompletions decodeEnt h cs).store[r]? = h.store[r]?
  | [], _, _ => rfl
  | c :: cs, h, hne => by
    have hstep : (applyCompletion decodeEnt h c.1 c.2).store[r]? = h.store[r]? := by
      unfold applyCompletion
      cases hs : h.store[c.1]? with
      | none => rfl
      | some t => simpa using List.getElem?_set_ne (hne c (by simp))
    have hrest := applyCompletions_getElem_ne decodeEnt r cs
      (applyCompletion decodeEnt h c.1 c.2) (fun d hd => hne d (List.mem_cons_of_mem _ hd))
    calc (applyCompletions decodeEnt h (c :: cs)).store[r]?
        = (applyCompletions decodeEnt (applyCompletion decodeEnt h c.1 c.2) cs).store[r]? := rfl
      _ = (applyCompletion decodeEnt h c.1 c.2).store[r]? := hrest
      _ = h.store[r]? := hstep

/-- C2 (confirmed): when a second load replaces the playlist before the
first load resolves, the first load completion callbacks mutate only the
track objects they closed over — objects allocated by the first load —
so every track of the playlist produced by the second load is unchanged
by them: no title, artist or thumbnail write of the superseded load is
visible there. -/
theorem c2_supersession (decodeEnt : Str → Str) (liked : Str → Bool) (h0 : Heap)
    (u1 u2 : List Str) (cs : List (Nat × Option MetaResult))
    (hcs : ∀ c ∈ cs, c.1 ∈ (heapLoad liked h0 u1).playlistRefs)
    (r : Nat) (hr : r ∈ (heapLoad liked (heapLoad liked h0 u1) u2).playlistRefs) :
    (applyCompletions decodeEnt (heapLoad liked (heapLoad liked h0 u1) u2) cs).store[r]? =
      (heapLoad liked (heapLoad liked h0 u1) u2).store[r]? := by
  apply applyCompletions_getElem_ne
  intro c hc
  have h1 := heapLoad_refs_upper liked h0 u1 (hcs c hc)
  have h2 := heapLoad_refs_lower liked (heapLoad liked h0 u1) u2 hr
  omega

/-- C2 witness: loading identifier `a`, superseding it with a load of
identifier `b`, then letting the first lookup complete leaves the track
object of the new playlist untouched. -/
theorem c2_supersession_witness :
    (applyCompletions id
        (heapLoad (fun _ => false) (heapLoad (fun _ => false) ⟨[], []⟩ [['a']]) [['b']])
        [(0, some ⟨['T'], ['A'], none⟩)]).store[1]? =
      (heapLoad (fun _ => false) (heapLoad (fun _ => false) ⟨[], []⟩ [['a']]) [['b']]).store[1]? :=
  c2_supersession id (fun _ => false) ⟨[], []⟩ [['a']] [['b']]
    [(0, some ⟨['T'], ['A'], none⟩)] (by decide) 1 (by decide)

-- ===== Field lemmas for loadTrack =====

/-- `loadTrack` never changes the playlist. -/
theorem loadTrack_playlist (s : PlayerState) (i : Int) :
    (loadTrack s i).playlist = s.playlist := by
  unfold loadTrack
  split <;> rfl

/-- `loadTrack` never changes the playing flag. -/
theorem loadTrack_isPlaying (s : PlayerState) (i : Int) :
    (loadTrack s i).isPlaying = s.isPlaying := by
  unfold loadTrack
  split <;> rfl

/-- `loadTrack` never changes the shuffle snapshot. -/
theorem loadTrack_originalPlaylist (s : PlayerState) (i : Int) :
    (loadTrack s i).originalPlaylist = s.originalPlaylist := by
  unfold loadTrack
  split <;> rfl

/-- After forcing the cursor to 0 and calling `loadTrack 0`, the cursor
is 0. -/
theorem loadTrack_zero_currentIndex (s : PlayerState) :
    (loadTrack { s with currentIndex := 0 } 0).currentIndex = 0 := by
  unfold loadTrack
  split <;> rfl

-- ===== C3: next() at the last index =====

/-- C3 (amended): on a non-empty playlist with the cursor at the last
index, `playNext` wraps the cursor to 0 under repeat `all`; under repeat
`none` it returns with the whole state unchanged — in particular the
cursor stays and the playing flag is NOT cleared, so no transition to
Paused happens. -/
theorem c3_next_at_end (s : PlayerState) (hne : s.playlist ≠ [])
    (hlast : s.currentIndex = s.playlist.length - 1) :
    (s.repeatMode = .rAll → (playNext s).currentIndex = 0) ∧
    (s.repeatMode = .rNone → playNext s = s) := by
  have hlen : s.playlist.length ≠ 0 := by
    simpa using hne
  constructor
  · intro hall
    unfold playNext
    rw [if_neg hlen, if_pos (by omega), hall]
    unfold loadTrack
    rw [if_neg (by push_neg; constructor <;> omega)]
    rfl
  · intro hnone
    unfold playNext
    rw [if_neg hlen, if_pos (by omega), hnone]

/-- C3 counterexample: in the concrete two-track state at the last index
with repeat `none` and the Playing flag set, `playNext` leaves the flag
set — the state machine does not transition to Paused as the claim
states. -/
theorem c3_counterexample :
    endStateNone.playlist ≠ [] ∧
    endStateNone.currentIndex = endStateNone.playlist.length - 1 ∧
    endStateNone.repeatMode = .rNone ∧
    endStateNone.isPlaying = true ∧
    (playNext endStateNone).isPlaying = true := by
  refine ⟨by decide, by decide, by decide, by decide, by decide⟩

/-- C3 witness: the wrap to 0 under repeat `all` at the concrete
two-track state. -/
theorem c3_next_at_end_witness :
    (playNext endStateAll).currentIndex = 0 :=
  (c3_next_at_end endStateAll (by decide) (by decide)).1 rfl

-- ===== C4: comparator-based random sort is biased =====

/-- C4: under the comparator-shuffle model of
`playlist.sort(() => Math.random() - 0.5)` — each comparison consuming
one fair coin flip — the 8 flip streams of length 3 produce the reversal
of a 3-element list twice but the identity only once: the induced
distribution over permutations is not uniform, so the implemented
shuffle is not the bias-free uniform shuffle the claim requires. -/
theorem c4_random_sort_biased :
    outcomeCount 3 [0, 1, 2] [2, 1, 0] = 2 ∧
    outcomeCount 3 [0, 1, 2] [0, 1, 2] = 1 ∧
    outcomeCount 3 [0, 1, 2] [2, 1, 0] ≠ outcomeCount 3 [0, 1, 2] [0, 1, 2] := by
  refine ⟨by decide, by decide, by decide⟩

-- ===== C5: a load that finds no identifier =====

/-- C5 (amended): when a non-blank input yields zero identifiers, the
load surfaces the no-valid-links signal and returns with the cursor and
the playing flag untouched — but the playlist does NOT keep its previous
value: it has already been reset to empty before the zero-identifier
check, so the previous playlist is lost. -/
theorem c5_no_valid_links (resolveShort : Str → Option Str) (liked : Str → Bool)
    (s : PlayerState) (text : Str) (hne : trimStr text ≠ [])
    (hempty : extractedIds resolveShort text = []) :
    loadPlaylist resolveShort liked s text = ({ s with playlist := [] }, .noValidLinks) := by
  unfold loadPlaylist
  rw [if_neg hne, hempty]
  rfl

/-- C5 counterexample: the input `hello` yields zero identifiers, yet
loading it over a state holding one track does mutate the playback
state — the playlist observable after the failed load is empty, not the
playlist observable before it. -/
theorem c5_counterexample :
    extractedIds (fun _ => none) (("hello").data) = [] ∧
    (loadPlaylist (fun _ => none) (fun _ => false) loadedState (("hello").data)).1.playlist ≠
      loadedState.playlist := by
  refine ⟨by decide, by decide⟩

/-- C5 witness: the amended statement at the concrete state and the
concrete input `hello`. -/
theorem c5_no_valid_links_witness :
    loadPlaylist (fun _ => none) (fun _ => false) loadedState (("hello").data) =
      ({ loadedState with playlist := [] }, .noValidLinks) :=
  c5_no_valid_links (fun _ => none) (fun _ => false) loadedState (("hello").data)
    (by decide) (by decide)

-- ===== C6: double shuffle toggle =====

/-- C6 (amended): starting with shuffle off, toggling shuffle twice
restores exactly the original track order, and the displayed list is a
permutation of the original at the intermediate step — but the cursor is
reset to index 0 by each toggle, it is not restored to the identifier it
pointed at. -/
theorem c6_double_toggle (shuffle : List Track → List Track) (s : PlayerState)
    (hmode : s.shuffleMode = false)
    (hperm : (shuffle s.playlist).Perm s.playlist) :
    (toggleShuffle shuffle (toggleShuffle shuffle s)).playlist = s.playlist ∧
    (toggleShuffle shuffle (toggleShuffle shuffle s)).currentIndex = 0 ∧
    (toggleShuffle shuffle s).playlist.Perm s.playlist := by
  refine ⟨?_, ?_, ?_⟩
  · unfold toggleShuffle
    rw [hmode]
    simp only [Bool.not_false, if_pos, loadTrack_playlist, loadTrack_originalPlaylist]
    unfold loadTrack
    split <;> simp
  · unfold toggleShuffle
    exact loadTrack_zero_currentIndex _
  · unfold toggleShuffle
    rw [hmode]
    simpa [loadTrack_playlist] using hperm

/-- C6 counterexample: with the cursor on the second of two tracks and
the identity permutation as the sort outcome, toggling shuffle twice
restores the order but leaves the cursor on the FIRST track — the
identifier under the cursor changes from b to a, refuting the claim that
the cursor ends at the same identifier. -/
theorem c6_counterexample :
    (toggleShuffle id (toggleShuffle id exS6)).playlist = exS6.playlist ∧
    ((toggleShuffle id (toggleShuffle id exS6)).playlist[(toggleShuffle id (toggleShuffle id exS6)).currentIndex]?).map Track.uuid ≠
      (exS6.playlist[exS6.currentIndex]?).map Track.uuid := by
  refine ⟨by decide, by decide⟩

/-- C6 witness: order restoration at the concrete two-track state. -/
theorem c6_double_toggle_witness :
    (toggleShuffle id (toggleShuffle id exS6)).playlist = exS6.playlist :=
  (c6_double_toggle id exS6 rfl (List.Perm.refl _)).1

-- ===== C7: legacy decode equivalence and URL form precedence =====

/-- C7 (confirmed): for any reversible compression with non-empty tokens
and any non-empty list of valid identifiers, (1) the legacy uncompressed
`tracks` parameter decodes to the same list as the compressed `p`
parameter encoding that list; (2) a path of the form `/p/<shortId>` with
a non-empty short id takes precedence over both query parameters; (3) a
non-empty `p` parameter takes precedence over the legacy `tracks`
parameter. -/
theorem c7_legacy_and_precedence (compress : Str → Str) (decompress : Str → Option Str)
    (hinv : ∀ s, decompress (compress s) = some s)
    (hcne : ∀ s, s ≠ [] → compress s ≠ []) :
    (∀ l : List Str, l ≠ [] → (∀ u ∈ l, validIdentifier u) →
      loadFromQuery decompress none (some (joinChar ',' l)) = .fromList l ∧
      ∀ tr : Option Str,
        loadFromQuery decompress (some (encodeToken compress l)) tr = .fromList l) ∧
    (∀ (rest : Str) (pParam tracksParam : Option Str), rest ≠ [] →
      loadFromURL decompress ('/' :: 'p' :: '/' :: rest) pParam tracksParam =
        .fromShortId rest) ∧
    (∀ (p : Str) (tr : Option Str), p ≠ [] →
      loadFromQuery decompress (some p) tr = loadFromQuery decompress (some p) none) := by
  refine ⟨?_, ?_, ?_⟩
  · intro l hl hval
    have hjoin : joinChar ',' l ≠ [] :=
      joinChar_ne_nil ',' l hl (fun u hu => validIdentifier_ne_nil (hval u hu))
    have hsplit : splitOnChar ',' (joinChar ',' l) = l :=
      splitOnChar_joinChar ',' l hl (fun u hu => validIdentifier_no_comma (hval u hu))
    constructor
    · unfold loadFromQuery
      simp [jsTruthy, List.isEmpty_iff, hjoin, hsplit, hl]
    · intro tr
      unfold loadFromQuery
      have hc : compress (joinChar ',' l) ≠ [] := hcne _ hjoin
      simp [jsTruthy, List.isEmpty_iff, hc, encodeToken, decodeToken, hinv, hsplit, hl]
  · intro rest pParam tracksParam hrest
    unfold loadFromURL
    simp [hrest]
  · intro p tr hp
    unfold loadFromQuery
    simp [jsTruthy, List.isEmpty_iff, hp]

/-- C7 witness: the legacy comma-joined form of one valid identifier
decodes to the same one-element list as its compressed encoding
(compression instantiated with the identity transform), and the path
form wins at a concrete short id. -/
theorem c7_legacy_and_precedence_witness :
    loadFromQuery some none (some (joinChar ',' [canonicalSample])) =
      .fromList [canonicalSample] ∧
    loadFromQuery some (some (encodeToken id [canonicalSample])) (some (("x").data)) =
      .fromList [canonicalSample] ∧
    loadFromURL some (("/p/abc").data) none none = .fromShortId (("abc").data) :=
  ⟨((c7_legacy_and_precedence id some (fun _ => rfl) (fun _ h => h)).1
      [canonicalSample] (by decide) (by decide)).1,
   ((c7_legacy_and_precedence id some (fun _ => rfl) (fun _ h => h)).1
      [canonicalSample] (by decide) (by decide)).2 (some (("x").data)),
   (c7_legacy_and_precedence id some (fun _ => rfl) (fun _ h => h)).2.1
      (("abc").data) none none (by decide)⟩

-- ===== C8: history deduplication =====

/-- C8 (confirmed): saving a non-empty playlist removes every existing
record with the identical (order-sensitive) identifier sequence, puts
the new record at the front, and cuts the history to at most 10 records;
hence exactly one record with that identifier sequence remains, at the
most-recent position.  Applied twice with identical identifier
sequences — the general `recent` covers the result of the first save —
this yields exactly one such record. -/
theorem c8_history_dedup (idv : Nat) (ts : Str) (p : List Track) (hp : p ≠ [])
    (recent : List HistRecord) :
    (savePlaylist idv ts p recent).head? = some (mkHistRecord idv ts p) ∧
    ((savePlaylist idv ts p recent).filter
        (fun r => recUuids r == p.map Track.uuid)).length = 1 ∧
    (savePlaylist idv ts p recent).length ≤ 10 := by
  have hlen : p.length ≠ 0 := by simpa using hp
  have hobj : recUuids (mkHistRecord idv ts p) = p.map Track.uuid := by
    simp [recUuids, mkHistRecord]
  unfold savePlaylist
  rw [if_neg hlen]
  set filtered := recent.filter
    (fun r => !(recUuids r == p.map Track.uuid)) with hfdef
  have hshape : (mkHistRecord idv ts p :: filtered).take 10 =
      mkHistRecord idv ts p :: filtered.take 9 := rfl
  refine ⟨?_, ?_, ?_⟩
  · rw [hshape]
    rfl
  · rw [hshape]
    have hnil : (filtered.take 9).filter
        (fun r => recUuids r == p.map Track.uuid) = [] := by
      rw [List.filter_eq_nil_iff]
      intro r hr
      have hrf : r ∈ filtered := List.take_subset 9 filtered hr
      rw [hfdef] at hrf
      have := (List.mem_filter.mp hrf).2
      simpa using this
    simp [List.filter_cons, hobj, hnil]
  · rw [hshape]
    have := List.length_take 9 filtered
    simp only [List.length_cons]
    omega

/-- C8 witness: saving the same one-track playlist twice over an empty
history leaves exactly one record with that identifier sequence. -/
theorem c8_history_dedup_witness :
    ((savePlaylist 2 [] [trackA] (savePlaylist 1 [] [trackA] [])).filter
        (fun r => recUuids r == [trackA].map Track.uuid)).length = 1 :=
  (c8_history_dedup 2 [] [trackA] (by decide) (savePlaylist 1 [] [trackA] [])).2.1

-- ===== C9: cursor invariant =====

/-- `loadTrack` preserves the cursor invariant. -/
theorem loadTrack_inv (s : PlayerState) (i : Int) (h : cursorInv s) :
    cursorInv (loadTrack s i) := by
  unfold loadTrack
  split
  · exact h
  · rename_i hg
    push_neg at hg
    intro _
    simp only []
    omega

/-- `loadTrack 0` establishes the cursor invariant outright on any
state. -/
theorem loadTrack_zero_inv (s : PlayerState) : cursorInv (loadTrack s 0) := by
  unfold loadTrack
  split
  · rename_i hg
    intro hne
    rcases hg with hg | hg
    · omega
    · have : s.playlist.length = 0 := by omega
      simp [List.length_eq_zero] at this
      exact absurd this hne
  · rename_i hg
    push_neg at hg
    intro _
    simp only []
    omega

/-- `findIndexJS` returns `-1` or an index inside the list. -/
theorem findIndexJS_bounds {α : Type} (p : α → Bool) :
    ∀ l : List α, findIndexJS p l = -1 ∨
      (0 ≤ findIndexJS p l ∧ findIndexJS p l < (l.length : Int))
  | [] => Or.inl rfl
  | x :: xs => by
    unfold findIndexJS
    by_cases hp : p x = true
    · simp [hp]
    · rw [if_neg hp]
      rcases findIndexJS_bounds p xs with hr | hr
      · rw [hr]
        simp
      · rw [if_neg (by omega)]
        right
        refine ⟨by omega, ?_⟩
        simp only [List.length_cons]
        push_cast
        omega

/-- The reorder of the drag-and-drop handler preserves the length of the
playlist. -/
theorem splice_length (l : List Track) (fi ti : Nat) (x : Track) (hfi : fi < l.length) :
    (spliceInsert (spliceRemove l fi) ti x).length = l.length := by
  simp only [spliceInsert, spliceRemove, List.length_append, List.length_take,
    List.length_cons, List.length_drop]
  omega

/-- The relocated cursor stays inside the list when the previous cursor
was inside it. -/
theorem reorderCursor_lt (newList : List Track) (cu : Option Str) (ci : Nat)
    (hci : ci < newList.length) : reorderCursor newList cu ci < newList.length := by
  cases cu with
  | none => exact hci
  | some u =>
    simp only [reorderCursor]
    by_cases hu : u = []
    · rw [if_pos hu]
      exact hci
    · rw [if_neg hu]
      rcases findIndexJS_bounds (fun t => t.uuid == u) newList with hb | hb
      · rw [if_pos hb]
        exact hci
      · rw [if_neg (by omega)]
        omega

/-- `reorderPlaylist` preserves the cursor invariant. -/
theorem reorderPlaylist_inv (s : PlayerState) (fi ti : Nat) (h : cursorInv s) :
    cursorInv (reorderPlaylist s fi ti) := by
  unfold reorderPlaylist
  split
  · exact h
  · split
    · exact h
    · rename_i moved hm
      have hfi : fi < s.playlist.length := (List.getElem?_eq_some.mp hm).1
      have hlen : (spliceInsert (spliceRemove s.playlist fi) ti moved).length =
          s.playlist.length := splice_length s.playlist fi ti moved hfi
      intro _
      show reorderCursor _ _ _ < _
      apply reorderCursor_lt
      rw [hlen]
      apply h
      intro hnil
      rw [hnil] at hfi
      exact absurd hfi (by simp)

/-- `play` preserves the cursor invariant. -/
theorem play_inv (s : PlayerState) (h : cursorInv s) : cursorInv (play s) := by
  unfold play
  split
  · exact h
  · exact h

/-- `playNext` preserves the cursor invariant. -/
theorem playNext_inv (s : PlayerState) (h : cursorInv s) : cursorInv (playNext s) := by
  unfold playNext
  split
  · exact h
  · dsimp only
    split
    · split
      · exact loadTrack_zero_inv s
      · exact h
    · exact loadTrack_inv s _ h

/-- `playPrevious` preserves the cursor invariant. -/
theorem playPrevious_inv (s : PlayerState) (h : cursorInv s) :
    cursorInv (playPrevious s) := by
  unfold playPrevious
  split
  · exact h
  · dsimp only
    split
    · split
      · exact loadTrack_inv s _ h
      · exact h
    · exact loadTrack_inv s _ h

/-- The synchronous load preserves the cursor invariant. -/
theorem loadPlaylist_inv (r : Str → Option Str) (l : Str → Bool) (s : PlayerState)
    (t : Str) (h : cursorInv s) : cursorInv (loadPlaylist r l s t).1 := by
  unfold loadPlaylist
  split
  · exact h
  · split
    · intro hne
      exact absurd rfl hne
    · exact loadTrack_zero_inv _

/-- C9 (amended): every transition of the state machine preserves the
cursor invariant — a non-empty playlist keeps `currentIndex` inside
`[0, length)`.  (The second half of the claim, that Playing is never
active with an empty playlist, fails: see the counterexample.) -/
theorem c9_cursor_invariant (c : Cmd) (s : PlayerState) (h : cursorInv s) :
    cursorInv (step c s) := by
  cases c with
  | cPlay => exact play_inv s h
  | cPause => exact h
  | cTogglePlay =>
    show cursorInv (togglePlay s)
    unfold togglePlay
    split
    · exact h
    · exact play_inv s h
  | cNext => exact playNext_inv s h
  | cPrev => exact playPrevious_inv s h
  | cToggleRepeat => exact h
  | cShuffle f =>
    show cursorInv (toggleShuffle f s)
    unfold toggleShuffle
    exact loadTrack_zero_inv _
  | cClear confirmed =>
    show cursorInv (clearPlaylist s confirmed)
    unfold clearPlaylist
    split
    · intro hne
      exact absurd rfl hne
    · exact h
  | cLoad r l t => exact loadPlaylist_inv r l s t h
  | cLoadTrack i => exact loadTrack_inv s i h
  | cReorder fi ti => exact reorderPlaylist_inv s fi ti h
  | cTrackEnded =>
    show cursorInv (trackEnded s)
    unfold trackEnded
    split
    · exact play_inv s h
    · exact playNext_inv s h
  | cMediaError => exact playNext_inv s h

/-- C9 counterexample: from the initial state, load a genuine song URL,
press play, then clear the playlist: the playlist is empty while the
Playing flag is still set, refuting the half of the claim that Playing
is never active with an empty playlist (`clearPlaylist` empties the list
without pausing). -/
theorem c9_counterexample :
    (step (.cClear true) (step .cPlay (step (.cLoad (fun _ => none) (fun _ => false)
        (("https://suno.com/song/11111111-1111-1111-1111-111111111111").data)) initState))).playlist = [] ∧
    (step (.cClear true) (step .cPlay (step (.cLoad (fun _ => none) (fun _ => false)
        (("https://suno.com/song/11111111-1111-1111-1111-111111111111").data)) initState))).isPlaying = true := by
  refine ⟨by decide, by decide⟩

/-- C9 witness: the preserved cursor invariant at a concrete transition
of a concrete non-empty state. -/
theorem c9_cursor_invariant_witness :
    (step .cNext exS9).currentIndex < (step .cNext exS9).playlist.length :=
  c9_cursor_invariant .cNext exS9 (by decide) (by decide)

-- ===== C10: shape of the two extractor patterns =====

/-- C10 (confirmed): the first extractor pattern accepts ANY 36-character
run over the hexadecimal-or-hyphen class after `/song/` — not only the
canonical 8-4-4-4-12 arrangement — shown in general and at the concrete
non-UUID token of 36 ones, which the second (bare) pattern rejects while
it does accept the canonically shaped sample. -/
theorem c10_extractor_patterns :
    (∀ t : Str, t.length = 36 → t.all isHexHyphen = true →
      extractUUID (songPrefix ++ t) = some t) ∧
    extractUUID (("x/song/").data ++ nonCanonical) = some nonCanonical ∧
    findUUID nonCanonical = none ∧
    matchUUIDAt nonCanonical = false ∧
    extractUUID canonicalSample = some canonicalSample := by
  refine ⟨?_, by decide, by decide, by decide, by decide⟩
  intro t hl ha
  have htake : t.take 36 = t := List.take_of_length_le (by omega)
  have hm : matchSongAt ('/' :: 's' :: 'o' :: 'n' :: 'g' :: '/' :: t) = some t := by
    simp only [matchSongAt, htake]
    rw [if_pos (by decide), if_pos]
    rw [hl, ha]
    decide
  show extractUUID ('/' :: 's' :: 'o' :: 'n' :: 'g' :: '/' :: t) = some t
  unfold extractUUID findSong
  rw [hm]

/-- C10 witness: the universal half applied at the concrete non-UUID
token. -/
theorem c10_extractor_patterns_witness :
    extractUUID (songPrefix ++ nonCanonical) = some nonCanonical :=
  c10_extractor_patterns.1 nonCanonical (by decide) (by decide)

end Sunocat
